import Mathlib

/-!
Verification development for the CBOR message encoder of the ArduinoIoTCloud
command codec (`src/cbor/MessageEncoder.cpp` together with the command data
model header).  The C++ encoder is shallowly embedded: the command data model
becomes an inductive type, the per-message encoding routines become functions
on an explicit encoder-buffer state, and the four-phase encoder state machine
becomes a step function on `EncoderState`.

Parts of the repository referenced by the encoder but not present under
`src/` (the command-id-to-wire-tag table, the `Encoder::Status` enumeration,
the BLE MAC-address message struct, and the vendored CBOR serialization
primitives) are modelled from the natural-language specification; each such
definition carries a doc comment starting with `Modelled from the spec:`.
-/

namespace IoTCodec

/-! ## Compile-time size constants (from the command data model header) -/

def THING_ID_SIZE : Nat := 37

def SHA256_SIZE : Nat := 32

def ID_SIZE : Nat := 16

def MAX_LIB_VERSION_SIZE : Nat := 10

def UHWID_SIZE : Nat := 32

def PROVISIONING_JWT_SIZE : Nat := 246

def MAX_WIFI_NETWORKS : Nat := 20

/-- Modelled from the spec: the BLE MAC-address message and its 6-byte
address field are referenced by `MessageEncoder.cpp` but their declarations
are not under `src/`; the spec's concrete scenario fixes the address width at
6 bytes. -/
def BLE_MAC_ADDRESS_SIZE : Nat := 6

/-! ## Command identifiers (from the command data model header) -/

/-- Command identifiers, from the `CommandId` enumeration of the data-model
header.  `ProvisioningBLEMacAddress` is referenced by the encoder but absent
from the header version under `src/`; it is included as the encoder requires
it. -/
inductive CommandId where
  | DeviceBeginCmdId
  | ThingBeginCmdId
  | ThingUpdateCmdId
  | ThingDetachCmdId
  | DeviceRegisteredCmdId
  | DeviceAttachedCmdId
  | DeviceDetachedCmdId
  | LastValuesBeginCmdId
  | LastValuesUpdateCmdId
  | PropertiesUpdateCmdId
  | ResetCmdId
  | OtaBeginUpId
  | OtaProgressCmdUpId
  | OtaUpdateCmdDownId
  | TimezoneCommandUpId
  | TimezoneCommandDownId
  | UnknownCmdId
  | ProvisioningStatus
  | ProvisioningListWifiNetworks
  | ProvisioningUniqueHardwareId
  | ProvisioningJWT
  | ProvisioningTimestamp
  | ProvisioningCommands
  | ProvisioningWifiConfig
  | ProvisioningLoRaConfig
  | ProvisioningGSMConfig
  | ProvisioningNBIOTConfig
  | ProvisioningCATM1Config
  | ProvisioningEthernetConfig
  | ProvisioningCellularConfig
  | ProvisioningBLEMacAddress
  deriving DecidableEq

/-! ## Message values (from the command data model header)

Byte-valued fields are modelled as `List Nat` (each element a byte value);
fixed-capacity `char` arrays are lists whose length equals the declared
capacity, which theorems state as an explicit hypothesis where it matters.
-/

/-- A discovered Wi-Fi network entry: `SSID` is a pointer to a NUL-terminated
C string (modelled as the list of its bytes, the terminator excluded by
`cstr`), `RSSI` a pointer to a signed integer. -/
structure WiFiNetwork where
  SSID : List Nat
  RSSI : Int
  deriving DecidableEq

/-- One message value per encodable variant of the command data model.  The
C++ encoder receives a `Message *` and switches on `message->id`, casting to
the concrete struct; in a well-typed message the payload variant is
determined by the id, so dispatch is modelled on the variant.  `otherCommand`
is the header-only view of every id that has no concrete encodable payload
in the encoder. -/
inductive Message where
  | deviceBegin (lib_version : List Nat)
  | thingBegin (thing_id : List Nat)
  | lastValuesBegin
  | otaBeginUp (sha : List Nat)
  | otaProgress (id : List Nat) (state : Nat) (state_data : Int) (time : Nat)
  | timezoneCommandUp
  | provisioningStatus (status : Int)
  | provisioningListWifiNetworks (discoveredWifiNetworks : List WiFiNetwork)
      (numDiscoveredWiFiNetworks : Nat)
  | provisioningUniqueHardwareId (uniqueHardwareId : List Nat)
  | provisioningJWT (jwt : List Nat)
  | provisioningBLEMacAddress (macAddress : List Nat)
  | otherCommand (id : CommandId)
  deriving DecidableEq

/-- The `id` field of the embedded `Command` header. -/
def Message.id : Message → CommandId
  | .deviceBegin _ => .DeviceBeginCmdId
  | .thingBegin _ => .ThingBeginCmdId
  | .lastValuesBegin => .LastValuesBeginCmdId
  | .otaBeginUp _ => .OtaBeginUpId
  | .otaProgress _ _ _ _ => .OtaProgressCmdUpId
  | .timezoneCommandUp => .TimezoneCommandUpId
  | .provisioningStatus _ => .ProvisioningStatus
  | .provisioningListWifiNetworks _ _ => .ProvisioningListWifiNetworks
  | .provisioningUniqueHardwareId _ => .ProvisioningUniqueHardwareId
  | .provisioningJWT _ => .ProvisioningJWT
  | .provisioningBLEMacAddress _ => .ProvisioningBLEMacAddress
  | .otherCommand i => i

/-! ## Tag table (modelled from the spec) -/

/-- Modelled from the spec: the 16-bit-width unknown-tag sentinel reserved by
the Tag Table (the table itself is not under `src/`). -/
def CBORUnknownCmdTag16b : Nat := 0xffff

/-- Modelled from the spec: the 32-bit-width unknown-tag sentinel. -/
def CBORUnknownCmdTag32b : Nat := 0xffffffff

/-- Modelled from the spec: the 64-bit-width unknown-tag sentinel. -/
def CBORUnknownCmdTag64b : Nat := 0xffffffffffffffff

/-- Modelled from the spec: the Tag Table maps each command id with wire
presence to a small positive integer wire tag and every remaining id to an
unknown-tag sentinel.  The spec fixes no numeric values, so distinct small
naturals are chosen; no claim depends on the particular values. -/
def toCBORCommandTag : CommandId → Nat
  | .DeviceBeginCmdId => 2
  | .ThingBeginCmdId => 3
  | .ThingUpdateCmdId => 13
  | .ThingDetachCmdId => 14
  | .DeviceRegisteredCmdId => CBORUnknownCmdTag16b
  | .DeviceAttachedCmdId => CBORUnknownCmdTag16b
  | .DeviceDetachedCmdId => CBORUnknownCmdTag16b
  | .LastValuesBeginCmdId => 4
  | .LastValuesUpdateCmdId => 15
  | .PropertiesUpdateCmdId => CBORUnknownCmdTag16b
  | .ResetCmdId => CBORUnknownCmdTag16b
  | .OtaBeginUpId => 5
  | .OtaProgressCmdUpId => 6
  | .OtaUpdateCmdDownId => 16
  | .TimezoneCommandUpId => 7
  | .TimezoneCommandDownId => 17
  | .UnknownCmdId => CBORUnknownCmdTag16b
  | .ProvisioningStatus => 8
  | .ProvisioningListWifiNetworks => 9
  | .ProvisioningUniqueHardwareId => 10
  | .ProvisioningJWT => 11
  | .ProvisioningTimestamp => 18
  | .ProvisioningCommands => 19
  | .ProvisioningWifiConfig => 20
  | .ProvisioningLoRaConfig => 21
  | .ProvisioningGSMConfig => 22
  | .ProvisioningNBIOTConfig => 23
  | .ProvisioningCATM1Config => 18446744073709551000
  | .ProvisioningEthernetConfig => 18446744073709551001
  | .ProvisioningCellularConfig => 18446744073709551002
  | .ProvisioningBLEMacAddress => 12

/-- A tag value is one of the three reserved unknown-tag sentinels. -/
def isSentinelTag (t : Nat) : Bool :=
  t == CBORUnknownCmdTag16b || t == CBORUnknownCmdTag32b || t == CBORUnknownCmdTag64b

/-! ## Status and state enumerations -/

/-- Modelled from the spec: the terminal outcomes of the encoder contract are
`Complete`, `Error` and `MessageNotSupported` (the `Encoder::Status`
enumeration itself is not under `src/`; the encoder source only ever returns
`Complete` or `Error`). -/
inductive Status where
  | Complete
  | Error
  | MessageNotSupported
  deriving DecidableEq

/-- The internal states of the encoder state machine, as used by
`CBORMessageEncoder::encode`. -/
inductive EncoderState where
  | EncodeTag
  | EncodeArray
  | EncodeParam
  | CloseArray
  | Complete
  | MessageNotSupported
  | Error
  deriving DecidableEq

/-! ## CBOR serialization primitives

Modelled from the spec and the CBOR wire rules it describes (the vendored
CBOR library the encoder calls is not under `src/`): items are written as a
major-type header carrying a length or value in the shortest form, followed
by payload bytes; a buffer writer tracks the bytes written, the buffer
capacity and the declared-minus-written item count of the open container.
-/

/-- Serialization failures of the CBOR primitives. -/
inductive CborError where
  | outOfMemory
  | tooFewItems
  | tooManyItems
  | illegalSimpleType
  deriving DecidableEq

/-- Big-endian bytes of `v`, exactly `k` of them (the low `8 k` bits). -/
def beBytes (k : Nat) (v : Nat) : List Nat :=
  (List.range k).reverse.map (fun i => v / 256 ^ i % 256)

/-- Modelled from the spec: a CBOR item header of the given major type whose
argument `val` is written in the shortest of the 1-, 2-, 3-, 5- and 9-byte
forms (values are 64-bit on the wire). -/
def cborEncodedHeader (major : Nat) (val : Nat) : List Nat :=
  if val < 24 then [32 * major + val]
  else if val < 2 ^ 8 then (32 * major + 24) :: beBytes 1 val
  else if val < 2 ^ 16 then (32 * major + 25) :: beBytes 2 val
  else if val < 2 ^ 32 then (32 * major + 26) :: beBytes 4 val
  else (32 * major + 27) :: beBytes 8 (val % 2 ^ 64)

/-- Bytes of a CBOR tag head (major type 6). -/
def tagBytes (t : Nat) : List Nat := cborEncodedHeader 6 t

/-- Bytes of a definite-length array head (major type 4). -/
def arrayHdr (n : Nat) : List Nat := cborEncodedHeader 4 n

/-- Bytes of a byte string of declared length `n` (major type 2) read from
`bs`; the source reads exactly `n` bytes from the field's memory, so
theorems carry the hypothesis `bs.length = n` where it matters. -/
def byteStringBytes (bs : List Nat) (n : Nat) : List Nat :=
  cborEncodedHeader 2 n ++ bs.take n

/-- Content of a NUL-terminated C string stored in `l`: the bytes before the
first 0. -/
def cstr (l : List Nat) : List Nat := l.takeWhile (fun b => b ≠ 0)

/-- The C `strlen` of a NUL-terminated string stored in `l` (if `l` holds no
0 the source would read past the field; the model stops at the field's
declared extent). -/
def cstrlen (l : List Nat) : Nat := (cstr l).length

/-- Bytes of a text string written from a NUL-terminated C string (major
type 3, `strlen` semantics). -/
def textStringzBytes (s : List Nat) : List Nat :=
  cborEncodedHeader 3 (cstrlen s) ++ cstr s

/-- Bytes of a signed integer (major type 0 for non-negative values, major
type 1 with argument `-1 - i` for negative values). -/
def intBytes (i : Int) : List Nat :=
  if 0 ≤ i then cborEncodedHeader 0 i.toNat
  else cborEncodedHeader 1 (-1 - i).toNat

/-- Bytes of an unsigned integer (major type 0). -/
def uintBytes (n : Nat) : List Nat := cborEncodedHeader 0 n

/-- The CBOR buffer writer: bytes written so far, the capacity fixed at
initialization, and the container bookkeeping count (`remaining`, the
declared element count plus one, decremented per item written). -/
structure CborEnc where
  bytes : List Nat
  cap : Nat
  remaining : Nat
  deriving DecidableEq

/-- Append one data item to the buffer, failing when the capacity would be
exceeded; writing an item decrements the container count. -/
def appendItem (e : CborEnc) (bs : List Nat) : Except CborError CborEnc :=
  if e.bytes.length + bs.length ≤ e.cap then
    Except.ok ⟨e.bytes ++ bs, e.cap, e.remaining - 1⟩
  else Except.error CborError.outOfMemory

/-- Write a tag head; tags precede an item and do not count toward the open
container's element count. -/
def cbor_encode_tag (e : CborEnc) (t : Nat) : Except CborError CborEnc :=
  if e.bytes.length + (tagBytes t).length ≤ e.cap then
    Except.ok ⟨e.bytes ++ tagBytes t, e.cap, e.remaining⟩
  else Except.error CborError.outOfMemory

/-- Write a byte string of declared length `len` taken from `bs`. -/
def cbor_encode_byte_string (e : CborEnc) (bs : List Nat) (len : Nat) :
    Except CborError CborEnc :=
  appendItem e (byteStringBytes bs len)

/-- Write a text string from a NUL-terminated C string. -/
def cbor_encode_text_stringz (e : CborEnc) (s : List Nat) :
    Except CborError CborEnc :=
  appendItem e (textStringzBytes s)

/-- Write a signed integer. -/
def cbor_encode_int (e : CborEnc) (i : Int) : Except CborError CborEnc :=
  appendItem e (intBytes i)

/-- Write an unsigned integer. -/
def cbor_encode_uint (e : CborEnc) (n : Nat) : Except CborError CborEnc :=
  appendItem e (uintBytes n)

/-- Write a simple value (major type 7); the reserved values 25–31 are
rejected as an illegal simple type. -/
def cbor_encode_simple_value (e : CborEnc) (v : Nat) : Except CborError CborEnc :=
  if 25 ≤ v ∧ v ≤ 31 then Except.error CborError.illegalSimpleType
  else appendItem e (cborEncodedHeader 7 v)

/-- Open a definite-length array of `n` elements: the returned container
writer continues in the same buffer and starts its element bookkeeping at
`n + 1`. -/
def cbor_encoder_create_array (e : CborEnc) (n : Nat) : Except CborError CborEnc :=
  if e.bytes.length + (arrayHdr n).length ≤ e.cap then
    Except.ok ⟨e.bytes ++ arrayHdr n, e.cap, n + 1⟩
  else Except.error CborError.outOfMemory

/-- Close a definite-length container: the parent writer takes over the
container's buffer position; a mismatch between the declared and the written
element count fails with too many or too few items. -/
def cbor_encoder_close_container (e a : CborEnc) : Except CborError CborEnc :=
  if a.remaining = 1 then Except.ok ⟨a.bytes, e.cap, e.remaining⟩
  else if a.remaining = 0 then Except.error CborError.tooManyItems
  else Except.error CborError.tooFewItems

/-- The writer produced by `cbor_encoder_init(&encoder, data, len, 0)`. -/
def initEnc (len : Nat) : CborEnc := ⟨[], len, 2⟩

/-- Placeholder for the not-yet-initialized array writer (the C++ code
declares `CborEncoder arrayEncoder` uninitialized; it is only read after the
array-open phase sets it). -/
def dummyEnc : CborEnc := ⟨[], 0, 0⟩

/-- The number of bytes used in the buffer,
`cbor_encoder_get_buffer_size(&encoder, data)`. -/
def cbor_encoder_get_buffer_size (e : CborEnc) : Nat := e.bytes.length

/-! ## Per-message parameter encoders (from `MessageEncoder.cpp`)

Each mirrors the corresponding `CBORMessageEncoder::encodeXxx` member; the
C++ routines cast the generic message pointer to the concrete struct and
read its fields, which the embedding passes directly.
-/

/-- Mirrors `CBORMessageEncoder::encodeOtaBeginUp`: one byte string of
exactly `SHA256_SIZE` bytes. -/
def encodeOtaBeginUp (array_encoder : CborEnc) (sha : List Nat) :
    Except CborError CborEnc :=
  cbor_encode_byte_string array_encoder sha SHA256_SIZE

/-- Mirrors `CBORMessageEncoder::encodeThingBeginCmd`: the thing id as a
NUL-terminated text string. -/
def encodeThingBeginCmd (array_encoder : CborEnc) (thing_id : List Nat) :
    Except CborError CborEnc :=
  cbor_encode_text_stringz array_encoder thing_id

/-- Mirrors `CBORMessageEncoder::encodeDeviceBeginCmd`: the library version
as a NUL-terminated text string. -/
def encodeDeviceBeginCmd (array_encoder : CborEnc) (lib_version : List Nat) :
    Except CborError CborEnc :=
  cbor_encode_text_stringz array_encoder lib_version

/-- Mirrors `CBORMessageEncoder::encodeOtaProgressCmdUp`: id byte string,
state simple value, state_data signed integer, time unsigned integer. -/
def encodeOtaProgressCmdUp (array_encoder : CborEnc) (id : List Nat)
    (state : Nat) (state_data : Int) (time : Nat) : Except CborError CborEnc :=
  match cbor_encode_byte_string array_encoder id ID_SIZE with
  | Except.error err => Except.error err
  | Except.ok e1 =>
    match cbor_encode_simple_value e1 state with
    | Except.error err => Except.error err
    | Except.ok e2 =>
      match cbor_encode_int e2 state_data with
      | Except.error err => Except.error err
      | Except.ok e3 => cbor_encode_uint e3 time

/-- Mirrors `CBORMessageEncoder::encodeProvisioningStatus`: the status as a
signed integer. -/
def encodeProvisioningStatus (array_encoder : CborEnc) (status : Int) :
    Except CborError CborEnc :=
  cbor_encode_int array_encoder status

/-- The element lookup `discoveredWifiNetworks[i]` performed by the Wi-Fi
list loop; an index at or beyond the list's extent is an out-of-bounds read
of the fixed-capacity storage in the source (the model returns a default
entry there). -/
def wifiNetworkAt (networks : List WiFiNetwork) (i : Nat) : WiFiNetwork :=
  networks.getD i ⟨[], 0⟩

/-- The indices dereferenced by the loop
`for (int i = 0; i < numDiscoveredWiFiNetworks; i++)` of
`encodeProvisioningListWifiNetworks`. -/
def listWifiReadIndices (numDiscoveredWiFiNetworks : Nat) : List Nat :=
  List.range numDiscoveredWiFiNetworks

/-- The body iteration of the Wi-Fi list loop over the given index
sequence: per index, the SSID as a NUL-terminated text string then the RSSI
as a signed integer. -/
def encodeWifiNetworksLoop (networks : List WiFiNetwork) :
    List Nat → CborEnc → Except CborError CborEnc
  | [], e => Except.ok e
  | i :: rest, e =>
    match cbor_encode_text_stringz e (wifiNetworkAt networks i).SSID with
    | Except.error err => Except.error err
    | Except.ok e1 =>
      match cbor_encode_int e1 (wifiNetworkAt networks i).RSSI with
      | Except.error err => Except.error err
      | Except.ok e2 => encodeWifiNetworksLoop networks rest e2

/-- Mirrors `CBORMessageEncoder::encodeProvisioningListWifiNetworks`. -/
def encodeProvisioningListWifiNetworks (array_encoder : CborEnc)
    (networks : List WiFiNetwork) (numDiscoveredWiFiNetworks : Nat) :
    Except CborError CborEnc :=
  encodeWifiNetworksLoop networks (listWifiReadIndices numDiscoveredWiFiNetworks)
    array_encoder

/-- Mirrors `CBORMessageEncoder::encodeProvisioningUniqueHardwareId`: one
byte string of exactly `UHWID_SIZE` bytes. -/
def encodeProvisioningUniqueHardwareId (array_encoder : CborEnc)
    (uniqueHardwareId : List Nat) : Except CborError CborEnc :=
  cbor_encode_byte_string array_encoder uniqueHardwareId UHWID_SIZE

/-- Mirrors `CBORMessageEncoder::encodeProvisioningJWT`: one byte string of
`strlen(jwt)` bytes — the declared length is taken from the position of the
first NUL in the field, not from `PROVISIONING_JWT_SIZE`. -/
def encodeProvisioningJWT (array_encoder : CborEnc) (jwt : List Nat) :
    Except CborError CborEnc :=
  cbor_encode_byte_string array_encoder jwt (cstrlen jwt)

/-- Mirrors `CBORMessageEncoder::encodeProvisioningBLEMacAddress`: a byte
string of length 0 when the 6-byte address equals the all-zero sentinel,
of length `BLE_MAC_ADDRESS_SIZE` otherwise. -/
def encodeProvisioningBLEMacAddress (array_encoder : CborEnc)
    (macAddress : List Nat) : Except CborError CborEnc :=
  cbor_encode_byte_string array_encoder macAddress
    (if macAddress.take BLE_MAC_ADDRESS_SIZE =
        List.replicate BLE_MAC_ADDRESS_SIZE 0 then 0
     else BLE_MAC_ADDRESS_SIZE)

/-! ## The four phase handlers (from `MessageEncoder.cpp`) -/

/-- Mirrors `CBORMessageEncoder::handle_EncodeTag`: resolving to an
unknown-tag sentinel, or a failing tag write, yields the `Error` state. -/
def handle_EncodeTag (encoder : CborEnc) (message : Message) :
    EncoderState × CborEnc :=
  if toCBORCommandTag message.id = CBORUnknownCmdTag16b ∨
      toCBORCommandTag message.id = CBORUnknownCmdTag32b ∨
      toCBORCommandTag message.id = CBORUnknownCmdTag64b then
    (EncoderState.Error, encoder)
  else
    match cbor_encode_tag encoder (toCBORCommandTag message.id) with
    | Except.error _ => (EncoderState.Error, encoder)
    | Except.ok e => (EncoderState.EncodeArray, e)

/-- The declared array element count per message type, the `switch` of
`handle_EncodeArray`; `none` is the `default` branch
(`MessageNotSupported`). -/
def arraySizeOf : Message → Option Nat
  | .otaBeginUp _ => some 1
  | .thingBegin _ => some 1
  | .deviceBegin _ => some 1
  | .lastValuesBegin => some 0
  | .otaProgress _ _ _ _ => some 4
  | .timezoneCommandUp => some 0
  | .provisioningStatus _ => some 1
  | .provisioningListWifiNetworks _ num => some (2 * num)
  | .provisioningUniqueHardwareId _ => some 1
  | .provisioningJWT _ => some 1
  | .provisioningBLEMacAddress _ => some 1
  | .otherCommand _ => none

/-- Mirrors `CBORMessageEncoder::handle_EncodeArray`: open a definite-length
array sized by the message type. -/
def handle_EncodeArray (encoder : CborEnc) (message : Message) :
    EncoderState × CborEnc :=
  match arraySizeOf message with
  | none => (EncoderState.MessageNotSupported, dummyEnc)
  | some array_size =>
    match cbor_encoder_create_array encoder array_size with
    | Except.error _ => (EncoderState.Error, dummyEnc)
    | Except.ok arrayEncoder => (EncoderState.EncodeParam, arrayEncoder)

/-- The parameter phase's per-type dispatch, the `switch` of
`handle_EncodeParam`; `none` is the `default` branch
(`MessageNotSupported`), and the two parameterless message types write
nothing. -/
def encodeParamsOf (array_encoder : CborEnc) :
    Message → Option (Except CborError CborEnc)
  | .otaBeginUp sha => some (encodeOtaBeginUp array_encoder sha)
  | .thingBegin thing_id => some (encodeThingBeginCmd array_encoder thing_id)
  | .deviceBegin lib_version =>
    some (encodeDeviceBeginCmd array_encoder lib_version)
  | .lastValuesBegin => some (Except.ok array_encoder)
  | .otaProgress id state state_data time =>
    some (encodeOtaProgressCmdUp array_encoder id state state_data time)
  | .timezoneCommandUp => some (Except.ok array_encoder)
  | .provisioningStatus status =>
    some (encodeProvisioningStatus array_encoder status)
  | .provisioningListWifiNetworks networks num =>
    some (encodeProvisioningListWifiNetworks array_encoder networks num)
  | .provisioningUniqueHardwareId uhwid =>
    some (encodeProvisioningUniqueHardwareId array_encoder uhwid)
  | .provisioningJWT jwt => some (encodeProvisioningJWT array_encoder jwt)
  | .provisioningBLEMacAddress mac =>
    some (encodeProvisioningBLEMacAddress array_encoder mac)
  | .otherCommand _ => none

/-- Mirrors `CBORMessageEncoder::handle_EncodeParam`. -/
def handle_EncodeParam (array_encoder : CborEnc) (message : Message) :
    EncoderState × CborEnc :=
  match encodeParamsOf array_encoder message with
  | none => (EncoderState.MessageNotSupported, array_encoder)
  | some (Except.error _) => (EncoderState.Error, array_encoder)
  | some (Except.ok e) => (EncoderState.CloseArray, e)

/-- Mirrors `CBORMessageEncoder::handle_CloseArray`. -/
def handle_CloseArray (encoder arrayEncoder : CborEnc) :
    EncoderState × CborEnc :=
  match cbor_encoder_close_container encoder arrayEncoder with
  | Except.error _ => (EncoderState.Error, encoder)
  | Except.ok e => (EncoderState.Complete, e)

/-! ## The encoder state machine (from `CBORMessageEncoder::encode`) -/

/-- The mutable locals of the encode loop: the top-level writer `enc` and
the array writer `arr`. -/
structure MachineCtx where
  enc : CborEnc
  arr : CborEnc
  deriving DecidableEq

/-- One transition of the encode loop's `switch`; the three terminal states
transition to themselves (the loop exits on them). -/
def stepOnce (m : Message) : EncoderState × MachineCtx → EncoderState × MachineCtx
  | (EncoderState.EncodeTag, ctx) =>
    match handle_EncodeTag ctx.enc m with
    | (s, e) => (s, ⟨e, ctx.arr⟩)
  | (EncoderState.EncodeArray, ctx) =>
    match handle_EncodeArray ctx.enc m with
    | (s, a) => (s, ⟨ctx.enc, a⟩)
  | (EncoderState.EncodeParam, ctx) =>
    match handle_EncodeParam ctx.arr m with
    | (s, a) => (s, ⟨ctx.enc, a⟩)
  | (EncoderState.CloseArray, ctx) =>
    match handle_CloseArray ctx.enc ctx.arr with
    | (s, e) => (s, ⟨e, ctx.arr⟩)
  | (s, ctx) => (s, ctx)

/-- Iterated transitions of the encode loop. -/
def stepN (m : Message) : Nat → EncoderState × MachineCtx → EncoderState × MachineCtx
  | 0, s => s
  | n + 1, s => stepN m n (stepOnce m s)

/-- The whole run of the encode loop from the initial state.  Four
transitions suffice: the phase order `EncodeTag`, `EncodeArray`,
`EncodeParam`, `CloseArray` is strictly increasing and every handler moves
forward or to a terminal state (`encode_terminates_no_cycle` below), so the
machine is terminal after four steps and further steps would not change it. -/
def encodeRun (m : Message) (len : Nat) : EncoderState × MachineCtx :=
  stepN m 4 (EncoderState.EncodeTag, ⟨initEnc len, dummyEnc⟩)

/-- Mirrors `CBORMessageEncoder::encode(message, data, len)`: `len` carries
the buffer capacity in and, only on `Complete`, the number of bytes used
out; the `MessageNotSupported` and `Error` states both return the `Error`
status.  (The fallback branch also covers the non-terminal states, which
the termination theorem shows unreachable after four transitions.) -/
def encode (message : Message) (len : Nat) : Status × Nat :=
  match encodeRun message len with
  | (EncoderState.Complete, ctx) =>
    (Status.Complete, cbor_encoder_get_buffer_size ctx.enc)
  | _ => (Status.Error, len)

/-- The contents of the caller's buffer after a run (meaningful on
`Complete`). -/
def encodeOutput (message : Message) (len : Nat) : List Nat :=
  (encodeRun message len).2.enc.bytes

/-- The states on which the encode loop stops: `Complete` exits the loop,
`MessageNotSupported` and `Error` return from inside it. -/
def isTerminal : EncoderState → Bool
  | EncoderState.Complete => true
  | EncoderState.MessageNotSupported => true
  | EncoderState.Error => true
  | _ => false

/-- Position of a state in the phase order; all terminal states share the
top rank.  Every transition of a working state strictly increases the rank,
so no cycle among the working states is reachable. -/
def stateRank : EncoderState → Nat
  | EncoderState.EncodeTag => 0
  | EncoderState.EncodeArray => 1
  | EncoderState.EncodeParam => 2
  | EncoderState.CloseArray => 3
  | EncoderState.Complete => 4
  | EncoderState.MessageNotSupported => 4
  | EncoderState.Error => 4

/-- Field-for-field equality of two message values: same variant and equal
parameter fields (the notion of "the same command value" used by the
determinism property). -/
def Message.fieldEq : Message → Message → Bool
  | .deviceBegin a, .deviceBegin b => decide (a = b)
  | .thingBegin a, .thingBegin b => decide (a = b)
  | .lastValuesBegin, .lastValuesBegin => true
  | .otaBeginUp a, .otaBeginUp b => decide (a = b)
  | .otaProgress a1 a2 a3 a4, .otaProgress b1 b2 b3 b4 =>
    decide (a1 = b1 ∧ a2 = b2 ∧ a3 = b3 ∧ a4 = b4)
  | .timezoneCommandUp, .timezoneCommandUp => true
  | .provisioningStatus a, .provisioningStatus b => decide (a = b)
  | .provisioningListWifiNetworks a1 a2, .provisioningListWifiNetworks b1 b2 =>
    decide (a1 = b1 ∧ a2 = b2)
  | .provisioningUniqueHardwareId a, .provisioningUniqueHardwareId b =>
    decide (a = b)
  | .provisioningJWT a, .provisioningJWT b => decide (a = b)
  | .provisioningBLEMacAddress a, .provisioningBLEMacAddress b => decide (a = b)
  | .otherCommand a, .otherCommand b => decide (a = b)
  | _, _ => false

/-! ## Helper lemmas about the primitives -/

theorem appendItem_ok (e : CborEnc) (bs : List Nat)
    (h : e.bytes.length + bs.length ≤ e.cap) :
    appendItem e bs = Except.ok ⟨e.bytes ++ bs, e.cap, e.remaining - 1⟩ := by
  simp [appendItem, h]

theorem cbor_encode_tag_ok (e : CborEnc) (t : Nat)
    (h : e.bytes.length + (tagBytes t).length ≤ e.cap) :
    cbor_encode_tag e t = Except.ok ⟨e.bytes ++ tagBytes t, e.cap, e.remaining⟩ := by
  simp [cbor_encode_tag, h]

theorem cbor_encode_byte_string_ok (e : CborEnc) (bs : List Nat) (n : Nat)
    (h : e.bytes.length + (byteStringBytes bs n).length ≤ e.cap) :
    cbor_encode_byte_string e bs n =
      Except.ok ⟨e.bytes ++ byteStringBytes bs n, e.cap, e.remaining - 1⟩ := by
  simp [cbor_encode_byte_string, appendItem, h]

theorem cbor_encode_text_stringz_ok (e : CborEnc) (s : List Nat)
    (h : e.bytes.length + (textStringzBytes s).length ≤ e.cap) :
    cbor_encode_text_stringz e s =
      Except.ok ⟨e.bytes ++ textStringzBytes s, e.cap, e.remaining - 1⟩ := by
  simp [cbor_encode_text_stringz, appendItem, h]

theorem cbor_encode_int_ok (e : CborEnc) (i : Int)
    (h : e.bytes.length + (intBytes i).length ≤ e.cap) :
    cbor_encode_int e i =
      Except.ok ⟨e.bytes ++ intBytes i, e.cap, e.remaining - 1⟩ := by
  simp [cbor_encode_int, appendItem, h]

theorem cbor_encoder_create_array_ok (e : CborEnc) (n : Nat)
    (h : e.bytes.length + (arrayHdr n).length ≤ e.cap) :
    cbor_encoder_create_array e n =
      Except.ok ⟨e.bytes ++ arrayHdr n, e.cap, n + 1⟩ := by
  simp [cbor_encoder_create_array, h]

/-! ## Helper lemmas about the phase handlers -/

theorem handle_EncodeTag_ok (m : Message) (len : Nat)
    (hs : isSentinelTag (toCBORCommandTag m.id) = false)
    (hcap : (tagBytes (toCBORCommandTag m.id)).length ≤ len) :
    handle_EncodeTag (initEnc len) m =
      (EncoderState.EncodeArray, ⟨tagBytes (toCBORCommandTag m.id), len, 2⟩) := by
  simp only [isSentinelTag, Bool.or_eq_false_iff, beq_eq_false_iff_ne, ne_eq] at hs
  unfold handle_EncodeTag
  rw [if_neg (by tauto)]
  rw [cbor_encode_tag_ok (initEnc len) (toCBORCommandTag m.id)
    (by simpa [initEnc] using hcap)]
  simp [initEnc]

theorem handle_EncodeTag_sentinel (m : Message) (e : CborEnc)
    (hs : isSentinelTag (toCBORCommandTag m.id) = true) :
    handle_EncodeTag e m = (EncoderState.Error, e) := by
  simp only [isSentinelTag, Bool.or_eq_true, beq_iff_eq] at hs
  unfold handle_EncodeTag
  rw [if_pos (by tauto)]

theorem handle_EncodeArray_ok (m : Message) (e : CborEnc) (n : Nat)
    (hn : arraySizeOf m = some n)
    (hcap : e.bytes.length + (arrayHdr n).length ≤ e.cap) :
    handle_EncodeArray e m =
      (EncoderState.EncodeParam, ⟨e.bytes ++ arrayHdr n, e.cap, n + 1⟩) := by
  unfold handle_EncodeArray
  rw [hn]
  simp [cbor_encoder_create_array_ok e n hcap]

theorem handle_EncodeArray_unsupported (m : Message) (e : CborEnc)
    (hn : arraySizeOf m = none) :
    handle_EncodeArray e m = (EncoderState.MessageNotSupported, dummyEnc) := by
  unfold handle_EncodeArray
  rw [hn]

theorem handle_EncodeParam_ok (m : Message) (a e : CborEnc)
    (hp : encodeParamsOf a m = some (Except.ok e)) :
    handle_EncodeParam a m = (EncoderState.CloseArray, e) := by
  unfold handle_EncodeParam
  rw [hp]

theorem handle_CloseArray_ok (e a : CborEnc) (h : a.remaining = 1) :
    handle_CloseArray e a = (EncoderState.Complete, ⟨a.bytes, e.cap, e.remaining⟩) := by
  unfold handle_CloseArray cbor_encoder_close_container
  rw [if_pos h]

theorem handle_EncodeTag_state (e : CborEnc) (m : Message) :
    (handle_EncodeTag e m).1 = EncoderState.EncodeArray ∨
    (handle_EncodeTag e m).1 = EncoderState.Error := by
  unfold handle_EncodeTag
  split
  · exact Or.inr rfl
  · split
    · exact Or.inr rfl
    · exact Or.inl rfl

theorem handle_EncodeArray_state (e : CborEnc) (m : Message) :
    (handle_EncodeArray e m).1 = EncoderState.EncodeParam ∨
    (handle_EncodeArray e m).1 = EncoderState.MessageNotSupported ∨
    (handle_EncodeArray e m).1 = EncoderState.Error := by
  unfold handle_EncodeArray
  split
  · exact Or.inr (Or.inl rfl)
  · split
    · exact Or.inr (Or.inr rfl)
    · exact Or.inl rfl

theorem handle_EncodeParam_state (a : CborEnc) (m : Message) :
    (handle_EncodeParam a m).1 = EncoderState.CloseArray ∨
    (handle_EncodeParam a m).1 = EncoderState.MessageNotSupported ∨
    (handle_EncodeParam a m).1 = EncoderState.Error := by
  unfold handle_EncodeParam
  split
  · exact Or.inr (Or.inl rfl)
  · exact Or.inr (Or.inr rfl)
  · exact Or.inl rfl

theorem handle_CloseArray_state (e a : CborEnc) :
    (handle_CloseArray e a).1 = EncoderState.Complete ∨
    (handle_CloseArray e a).1 = EncoderState.Error := by
  unfold handle_CloseArray
  split
  · exact Or.inr rfl
  · exact Or.inl rfl

/-! ## Helper lemmas about the state machine -/

theorem stepOnce_encodeTag (m : Message) (ctx : MachineCtx) :
    stepOnce m (EncoderState.EncodeTag, ctx) =
      ((handle_EncodeTag ctx.enc m).1, ⟨(handle_EncodeTag ctx.enc m).2, ctx.arr⟩) := by
  unfold stepOnce
  rfl

theorem stepOnce_encodeArray (m : Message) (ctx : MachineCtx) :
    stepOnce m (EncoderState.EncodeArray, ctx) =
      ((handle_EncodeArray ctx.enc m).1, ⟨ctx.enc, (handle_EncodeArray ctx.enc m).2⟩) := by
  unfold stepOnce
  rfl

theorem stepOnce_encodeParam (m : Message) (ctx : MachineCtx) :
    stepOnce m (EncoderState.EncodeParam, ctx) =
      ((handle_EncodeParam ctx.arr m).1, ⟨ctx.enc, (handle_EncodeParam ctx.arr m).2⟩) := by
  unfold stepOnce
  rfl

theorem stepOnce_closeArray (m : Message) (ctx : MachineCtx) :
    stepOnce m (EncoderState.CloseArray, ctx) =
      ((handle_CloseArray ctx.enc ctx.arr).1,
        ⟨(handle_CloseArray ctx.enc ctx.arr).2, ctx.arr⟩) := by
  unfold stepOnce
  rfl

theorem stepOnce_terminal (m : Message) (s : EncoderState) (ctx : MachineCtx)
    (h : isTerminal s = true) : stepOnce m (s, ctx) = (s, ctx) := by
  cases s <;> simp_all [isTerminal, stepOnce]

theorem stepN_terminal (m : Message) (n : Nat) (s : EncoderState) (ctx : MachineCtx)
    (h : isTerminal s = true) : stepN m n (s, ctx) = (s, ctx) := by
  induction n with
  | zero => rfl
  | succ k ih => rw [stepN, stepOnce_terminal m s ctx h, ih]

theorem stepOnce_rank_lt (m : Message) (s : EncoderState) (ctx : MachineCtx)
    (h : isTerminal s = false) :
    stateRank s < stateRank (stepOnce m (s, ctx)).1 := by
  cases s
  case EncodeTag =>
    rw [stepOnce_encodeTag]
    rcases handle_EncodeTag_state ctx.enc m with h1 | h1 <;> simp [h1, stateRank]
  case EncodeArray =>
    rw [stepOnce_encodeArray]
    rcases handle_EncodeArray_state ctx.enc m with h1 | h1 | h1 <;>
      simp [h1, stateRank]
  case EncodeParam =>
    rw [stepOnce_encodeParam]
    rcases handle_EncodeParam_state ctx.arr m with h1 | h1 | h1 <;>
      simp [h1, stateRank]
  case CloseArray =>
    rw [stepOnce_closeArray]
    rcases handle_CloseArray_state ctx.enc ctx.arr with h1 | h1 <;>
      simp [h1, stateRank]
  all_goals simp [isTerminal] at h

theorem terminal_of_rank (s : EncoderState) (h : 4 ≤ stateRank s) :
    isTerminal s = true := by
  cases s <;> simp_all [stateRank, isTerminal]

theorem stepN_reaches_terminal (m : Message) (n : Nat) :
    ∀ (s : EncoderState) (ctx : MachineCtx), 4 ≤ stateRank s + n →
      isTerminal (stepN m n (s, ctx)).1 = true := by
  induction n with
  | zero =>
    intro s ctx h
    exact terminal_of_rank s (by simpa using h)
  | succ k ih =>
    intro s ctx h
    by_cases ht : isTerminal s = true
    · rw [stepN, stepOnce_terminal m s ctx ht, stepN_terminal m k s ctx ht]
      exact ht
    · rcases hstep : stepOnce m (s, ctx) with ⟨s', ctx'⟩
      have hrank : stateRank s < stateRank s' := by
        have := stepOnce_rank_lt m s ctx (by simpa using ht)
        rwa [hstep] at this
      rw [stepN, hstep]
      exact ih s' ctx' (by omega)

/-! ## The completed-run characterization -/

theorem encodeRun_phases (m : Message) (len : Nat) (e1 a1 a2 e2 : CborEnc)
    (h1 : handle_EncodeTag (initEnc len) m = (EncoderState.EncodeArray, e1))
    (h2 : handle_EncodeArray e1 m = (EncoderState.EncodeParam, a1))
    (h3 : handle_EncodeParam a1 m = (EncoderState.CloseArray, a2))
    (h4 : handle_CloseArray e1 a2 = (EncoderState.Complete, e2)) :
    encodeRun m len = (EncoderState.Complete, ⟨e2, a2⟩) := by
  have hrun : encodeRun m len =
      stepOnce m (stepOnce m (stepOnce m (stepOnce m
        (EncoderState.EncodeTag, ⟨initEnc len, dummyEnc⟩)))) := rfl
  rw [hrun, stepOnce_encodeTag]
  simp only [h1]
  rw [stepOnce_encodeArray]
  simp only [h2]
  rw [stepOnce_encodeParam]
  simp only [h3]
  rw [stepOnce_closeArray]
  simp only [h4]

theorem encode_complete (m : Message) (cid : CommandId) (len n : Nat)
    (outParams : CborEnc)
    (hid : m.id = cid)
    (hs : isSentinelTag (toCBORCommandTag cid) = false)
    (hn : arraySizeOf m = some n)
    (hcap1 : (tagBytes (toCBORCommandTag cid)).length ≤ len)
    (hcap2 : (tagBytes (toCBORCommandTag cid)).length + (arrayHdr n).length ≤ len)
    (hp : encodeParamsOf
        ⟨tagBytes (toCBORCommandTag cid) ++ arrayHdr n, len, n + 1⟩ m =
        some (Except.ok outParams))
    (hr : outParams.remaining = 1) :
    encode m len = (Status.Complete, outParams.bytes.length) ∧
    encodeOutput m len = outParams.bytes := by
  subst hid
  have h1 := handle_EncodeTag_ok m len hs hcap1
  have h2 := handle_EncodeArray_ok m ⟨tagBytes (toCBORCommandTag m.id), len, 2⟩ n hn
    (by simpa using hcap2)
  have h3 := handle_EncodeParam_ok m
    ⟨tagBytes (toCBORCommandTag m.id) ++ arrayHdr n, len, n + 1⟩ outParams hp
  have h4 := handle_CloseArray_ok ⟨tagBytes (toCBORCommandTag m.id), len, 2⟩
    outParams hr
  have hrun := encodeRun_phases m len _ _ _ _ h1 h2 h3 h4
  constructor
  · unfold encode
    rw [hrun]
    rfl
  · unfold encodeOutput
    rw [hrun]

theorem fieldEq_eq {m1 m2 : Message} (h : m1.fieldEq m2 = true) : m1 = m2 := by
  cases m1 <;> cases m2 <;> simp_all [Message.fieldEq]

/-! ## Claim theorems -/

/-- C8: the encode state machine terminates for every input: for every
message (any `CommandId`, including ones with no encoding rule) and every
buffer capacity the loop reaches a terminal state (`Complete`, `Error` or
`MessageNotSupported`) within four transitions, and every transition out of
a working state strictly increases the phase rank, so no cycle among the
`EncodeTag`, `EncodeArray`, `EncodeParam` and `CloseArray` states is
reachable. -/
theorem encode_terminates_no_cycle (m : Message) (len : Nat) :
    isTerminal (encodeRun m len).1 = true ∧
    (∀ (s : EncoderState) (ctx : MachineCtx), isTerminal s = false →
      stateRank s < stateRank (stepOnce m (s, ctx)).1) := by
  constructor
  · unfold encodeRun
    exact stepN_reaches_terminal m 4 EncoderState.EncodeTag ⟨initEnc len, dummyEnc⟩
      (by simp [stateRank])
  · intro s ctx h
    exact stepOnce_rank_lt m s ctx h

theorem encode_terminates_no_cycle_witness :
    isTerminal (encodeRun Message.lastValuesBegin 8).1 = true ∧
    stateRank EncoderState.EncodeTag <
      stateRank (stepOnce Message.lastValuesBegin
        (EncoderState.EncodeTag, ⟨initEnc 8, dummyEnc⟩)).1 :=
  ⟨(encode_terminates_no_cycle Message.lastValuesBegin 8).1,
   (encode_terminates_no_cycle Message.lastValuesBegin 8).2 EncoderState.EncodeTag
     ⟨initEnc 8, dummyEnc⟩ rfl⟩

/-- C9: on every encode call that does not return `Complete` the in-out
length parameter still holds the caller-supplied capacity; it is overwritten
with the number of bytes used only on `Complete`. -/
theorem encode_len_frame (m : Message) (len : Nat) :
    ((encode m len).1 ≠ Status.Complete → (encode m len).2 = len) ∧
    ((encode m len).1 = Status.Complete →
      (encode m len).2 = cbor_encoder_get_buffer_size (encodeRun m len).2.enc) := by
  unfold encode
  rcases h : encodeRun m len with ⟨s, ctx⟩
  cases s <;> simp

theorem encode_len_frame_witness :
    (encode (Message.otherCommand CommandId.UnknownCmdId) 7).2 = 7 ∧
    (encode Message.lastValuesBegin 9).2 =
      cbor_encoder_get_buffer_size (encodeRun Message.lastValuesBegin 9).2.enc :=
  ⟨(encode_len_frame (Message.otherCommand CommandId.UnknownCmdId) 7).1 (by decide),
   (encode_len_frame Message.lastValuesBegin 9).2 (by decide)⟩

/-- C2 counterexample: a message whose id resolves only to an unknown-tag
sentinel is reported with the generic `Error` status, not with the distinct
`MessageNotSupported` status the claim asserts. -/
theorem unsupported_id_status_cex :
    encode (Message.otherCommand CommandId.UnknownCmdId) 64 = (Status.Error, 64) ∧
    Status.Error ≠ Status.MessageNotSupported := by
  decide

/-- C2 amended: for every message whose id resolves only to an unknown-tag
sentinel, or has no per-type encoding rule, encode never returns `Complete`;
it returns the generic `Error` status, the same status value as low-level
serialization failures, so the two failure classes are not distinguishable
from the returned status. -/
theorem unsupported_id_never_complete (m : Message) (len : Nat)
    (h : isSentinelTag (toCBORCommandTag m.id) = true ∨ arraySizeOf m = none) :
    (encode m len).1 = Status.Error ∧ (encode m len).1 ≠ Status.Complete := by
  rcases h with hs | hn
  · have hs1 := handle_EncodeTag_sentinel m (initEnc len) hs
    have hrun : encodeRun m len = (EncoderState.Error, ⟨initEnc len, dummyEnc⟩) := by
      show stepN m 3 (stepOnce m
        (EncoderState.EncodeTag, ⟨initEnc len, dummyEnc⟩)) = _
      rw [stepOnce_encodeTag]
      dsimp only
      rw [hs1]
      exact stepN_terminal m 3 _ _ rfl
    unfold encode
    rw [hrun]
    exact ⟨rfl, by simp⟩
  · rcases h1 : handle_EncodeTag (initEnc len) m with ⟨s1, e1⟩
    rcases handle_EncodeTag_state (initEnc len) m with hs1 | hs1 <;>
      rw [h1] at hs1 <;> dsimp at hs1 <;> subst hs1
    · have hrun : encodeRun m len =
          (EncoderState.MessageNotSupported, ⟨e1, dummyEnc⟩) := by
        show stepN m 3 (stepOnce m
          (EncoderState.EncodeTag, ⟨initEnc len, dummyEnc⟩)) = _
        rw [stepOnce_encodeTag]
        dsimp only
        rw [h1]
        dsimp only
        show stepN m 2 (stepOnce m (EncoderState.EncodeArray, ⟨e1, dummyEnc⟩)) = _
        rw [stepOnce_encodeArray]
        dsimp only
        rw [handle_EncodeArray_unsupported m e1 hn]
        exact stepN_terminal m 2 _ _ rfl
      unfold encode
      rw [hrun]
      exact ⟨rfl, by simp⟩
    · have hrun : encodeRun m len = (EncoderState.Error, ⟨e1, dummyEnc⟩) := by
        show stepN m 3 (stepOnce m
          (EncoderState.EncodeTag, ⟨initEnc len, dummyEnc⟩)) = _
        rw [stepOnce_encodeTag]
        dsimp only
        rw [h1]
        exact stepN_terminal m 3 _ _ rfl
      unfold encode
      rw [hrun]
      exact ⟨rfl, by simp⟩

theorem unsupported_id_never_complete_witness :
    (encode (Message.otherCommand CommandId.TimezoneCommandDownId) 32).1 =
      Status.Error ∧
    (encode (Message.otherCommand CommandId.TimezoneCommandDownId) 32).1 ≠
      Status.Complete :=
  unsupported_id_never_complete (Message.otherCommand CommandId.TimezoneCommandDownId)
    32 (Or.inr rfl)

/-- C7: encoding is deterministic: two invocations of encode on
field-for-field equal command values with the same capacity return the same
status and length and produce byte-identical buffers. -/
theorem encode_deterministic (m1 m2 : Message) (len : Nat)
    (h : m1.fieldEq m2 = true) :
    encode m1 len = encode m2 len ∧ encodeOutput m1 len = encodeOutput m2 len := by
  have heq := fieldEq_eq h
  subst heq
  exact ⟨rfl, rfl⟩

theorem encode_deterministic_witness :
    encode (Message.provisioningStatus 1) 16 = encode (Message.provisioningStatus 1) 16 ∧
    encodeOutput (Message.provisioningStatus 1) 16 =
      encodeOutput (Message.provisioningStatus 1) 16 :=
  encode_deterministic (Message.provisioningStatus 1) (Message.provisioningStatus 1)
    16 (by decide)

/-- C1 counterexample: at reported network count 21 the declared element
count is 42, which is not bounded by `MAX_WIFI_NETWORKS`, the reported count
itself exceeds `MAX_WIFI_NETWORKS`, and the parameter loop dereferences
index 20, beyond the fixed-capacity storage. -/
theorem listWifi_unbounded_cex :
    arraySizeOf (Message.provisioningListWifiNetworks
      (List.replicate MAX_WIFI_NETWORKS ⟨[], 0⟩) 21) = some 42 ∧
    ¬ (42 ≤ MAX_WIFI_NETWORKS) ∧ ¬ (21 ≤ MAX_WIFI_NETWORKS) ∧
    MAX_WIFI_NETWORKS ∈ listWifiReadIndices 21 ∧
    ¬ (MAX_WIFI_NETWORKS < MAX_WIFI_NETWORKS) := by
  decide

/-- C1 amended: the declared element count of the Wi-Fi list array always
equals `2 × numDiscoveredWiFiNetworks`, with no clamping applied by the
encoder; only under the data-model precondition `numDiscoveredWiFiNetworks ≤
MAX_WIFI_NETWORKS` do all indices read by the parameter loop stay within the
fixed-capacity `discoveredWifiNetworks` storage. -/
theorem listWifi_count_and_bounds (networks : List WiFiNetwork) (num : Nat) :
    arraySizeOf (Message.provisioningListWifiNetworks networks num) =
      some (2 * num) ∧
    (num ≤ MAX_WIFI_NETWORKS →
      ∀ i ∈ listWifiReadIndices num, i < MAX_WIFI_NETWORKS) := by
  refine ⟨rfl, fun hb i hi => ?_⟩
  simp only [listWifiReadIndices, List.mem_range] at hi
  omega

theorem listWifi_count_and_bounds_witness :
    arraySizeOf (Message.provisioningListWifiNetworks [] 3) = some 6 ∧
    (∀ i ∈ listWifiReadIndices 3, i < MAX_WIFI_NETWORKS) :=
  ⟨(listWifi_count_and_bounds [] 3).1,
   (listWifi_count_and_bounds [] 3).2 (by decide)⟩

theorem encode_one_byte_string_param (m : Message) (cid : CommandId)
    (bs : List Nat) (n len : Nat)
    (hid : m.id = cid)
    (hs : isSentinelTag (toCBORCommandTag cid) = false)
    (h1 : arraySizeOf m = some 1)
    (hp : ∀ a : CborEnc, encodeParamsOf a m = some (cbor_encode_byte_string a bs n))
    (hcap : (tagBytes (toCBORCommandTag cid)).length + (arrayHdr 1).length +
      (byteStringBytes bs n).length ≤ len) :
    encode m len =
      (Status.Complete,
        (tagBytes (toCBORCommandTag cid)).length + (arrayHdr 1).length +
          (byteStringBytes bs n).length) ∧
    encodeOutput m len =
      tagBytes (toCBORCommandTag cid) ++ arrayHdr 1 ++ byteStringBytes bs n := by
  obtain ⟨hA, hB⟩ := encode_complete m cid len 1
    ⟨tagBytes (toCBORCommandTag cid) ++ arrayHdr 1 ++ byteStringBytes bs n, len, 1⟩
    hid hs h1 (by omega) (by omega)
    (by
      rw [hp]
      rw [cbor_encode_byte_string_ok]
      dsimp only
      simp only [List.length_append] at hcap ⊢
      omega)
    rfl
  refine ⟨?_, hB⟩
  rw [hA, Prod.mk.injEq]
  refine ⟨rfl, ?_⟩
  dsimp only
  simp only [List.length_append]

/-- C10: for every message whose id is `LastValuesBeginCmdId` or
`TimezoneCommandUpId`, given sufficient buffer capacity, encode returns
`Complete` and the output is exactly the wire tag followed by a
definite-length array declaring 0 elements, with no parameter fields
written. -/
theorem encode_empty_array_messages (len : Nat) (hcap : 2 ≤ len) :
    (encode Message.lastValuesBegin len =
        (Status.Complete,
          (tagBytes (toCBORCommandTag CommandId.LastValuesBeginCmdId) ++
            arrayHdr 0).length) ∧
      encodeOutput Message.lastValuesBegin len =
        tagBytes (toCBORCommandTag CommandId.LastValuesBeginCmdId) ++ arrayHdr 0) ∧
    (encode Message.timezoneCommandUp len =
        (Status.Complete,
          (tagBytes (toCBORCommandTag CommandId.TimezoneCommandUpId) ++
            arrayHdr 0).length) ∧
      encodeOutput Message.timezoneCommandUp len =
        tagBytes (toCBORCommandTag CommandId.TimezoneCommandUpId) ++ arrayHdr 0) := by
  constructor
  · exact encode_complete Message.lastValuesBegin CommandId.LastValuesBeginCmdId
      len 0
      ⟨tagBytes (toCBORCommandTag CommandId.LastValuesBeginCmdId) ++ arrayHdr 0,
        len, 1⟩
      rfl (by decide) rfl
      (by
        have ht : (tagBytes (toCBORCommandTag
          CommandId.LastValuesBeginCmdId)).length = 1 := by decide
        show (tagBytes (toCBORCommandTag CommandId.LastValuesBeginCmdId)).length ≤ len
        omega)
      (by
        have ht : (tagBytes (toCBORCommandTag
          CommandId.LastValuesBeginCmdId)).length = 1 := by decide
        have ha : (arrayHdr 0).length = 1 := by decide
        show (tagBytes (toCBORCommandTag CommandId.LastValuesBeginCmdId)).length +
          (arrayHdr 0).length ≤ len
        omega)
      rfl rfl
  · exact encode_complete Message.timezoneCommandUp CommandId.TimezoneCommandUpId
      len 0
      ⟨tagBytes (toCBORCommandTag CommandId.TimezoneCommandUpId) ++ arrayHdr 0,
        len, 1⟩
      rfl (by decide) rfl
      (by
        have ht : (tagBytes (toCBORCommandTag
          CommandId.TimezoneCommandUpId)).length = 1 := by decide
        show (tagBytes (toCBORCommandTag CommandId.TimezoneCommandUpId)).length ≤ len
        omega)
      (by
        have ht : (tagBytes (toCBORCommandTag
          CommandId.TimezoneCommandUpId)).length = 1 := by decide
        have ha : (arrayHdr 0).length = 1 := by decide
        show (tagBytes (toCBORCommandTag CommandId.TimezoneCommandUpId)).length +
          (arrayHdr 0).length ≤ len
        omega)
      rfl rfl

theorem encode_empty_array_messages_witness :
    (encode Message.lastValuesBegin 16 =
        (Status.Complete,
          (tagBytes (toCBORCommandTag CommandId.LastValuesBeginCmdId) ++
            arrayHdr 0).length) ∧
      encodeOutput Message.lastValuesBegin 16 =
        tagBytes (toCBORCommandTag CommandId.LastValuesBeginCmdId) ++ arrayHdr 0) ∧
    (encode Message.timezoneCommandUp 16 =
        (Status.Complete,
          (tagBytes (toCBORCommandTag CommandId.TimezoneCommandUpId) ++
            arrayHdr 0).length) ∧
      encodeOutput Message.timezoneCommandUp 16 =
        tagBytes (toCBORCommandTag CommandId.TimezoneCommandUpId) ++ arrayHdr 0) :=
  encode_empty_array_messages 16 (by decide)

/-- C6: for every OtaBeginUp message with a 32-byte SHA-256 hash and a
sufficiently large buffer, encode returns `Complete` and the output is
exactly the wire tag, a definite-length array declaring 1 element, and one
32-byte byte-string field holding the hash; the total length is the tag
bytes plus the array header plus the byte-string header plus 32. -/
theorem encode_otaBeginUp_layout (sha : List Nat) (len : Nat)
    (hsha : sha.length = SHA256_SIZE) (hcap : 36 ≤ len) :
    encode (Message.otaBeginUp sha) len =
      (Status.Complete,
        (tagBytes (toCBORCommandTag CommandId.OtaBeginUpId)).length +
          (arrayHdr 1).length + (cborEncodedHeader 2 SHA256_SIZE).length +
          SHA256_SIZE) ∧
    encodeOutput (Message.otaBeginUp sha) len =
      tagBytes (toCBORCommandTag CommandId.OtaBeginUpId) ++ arrayHdr 1 ++
        cborEncodedHeader 2 SHA256_SIZE ++ sha := by
  have htake : sha.take SHA256_SIZE = sha := by
    rw [← hsha]
    exact List.take_length sha
  have hH : (cborEncodedHeader 2 SHA256_SIZE).length = 2 := by decide
  have hBlen : (byteStringBytes sha SHA256_SIZE).length = 2 + SHA256_SIZE := by
    rw [byteStringBytes, htake]
    simp [hH, hsha]
  have hT : (tagBytes (toCBORCommandTag CommandId.OtaBeginUpId)).length = 1 := by
    decide
  have hA1 : (arrayHdr 1).length = 1 := by decide
  have hS : SHA256_SIZE = 32 := rfl
  obtain ⟨hA, hB⟩ := encode_one_byte_string_param (Message.otaBeginUp sha)
    CommandId.OtaBeginUpId sha SHA256_SIZE len rfl (by decide) rfl (fun a => rfl)
    (by omega)
  constructor
  · rw [hA, Prod.mk.injEq]
    exact ⟨rfl, by omega⟩
  · rw [hB, byteStringBytes, htake]
    simp [List.append_assoc]

theorem encode_otaBeginUp_layout_witness :
    encode (Message.otaBeginUp (List.replicate 32 7)) 64 =
      (Status.Complete,
        (tagBytes (toCBORCommandTag CommandId.OtaBeginUpId)).length +
          (arrayHdr 1).length + (cborEncodedHeader 2 SHA256_SIZE).length +
          SHA256_SIZE) ∧
    encodeOutput (Message.otaBeginUp (List.replicate 32 7)) 64 =
      tagBytes (toCBORCommandTag CommandId.OtaBeginUpId) ++ arrayHdr 1 ++
        cborEncodedHeader 2 SHA256_SIZE ++ List.replicate 32 7 :=
  encode_otaBeginUp_layout (List.replicate 32 7) 64 (by decide) (by decide)

/-- C4: for every BLE MAC-address message whose 6-byte address is all
zeros, encode writes a byte-string field of length 0 instead of the fixed
6-byte field; for every address that is not all zeros it writes the full
6-byte binary field. -/
theorem encode_bleMac_zero_sentinel (mac : List Nat) (len : Nat)
    (hmac : mac.length = BLE_MAC_ADDRESS_SIZE) (hcap : 9 ≤ len) :
    encode (Message.provisioningBLEMacAddress mac) len =
      (Status.Complete,
        (tagBytes (toCBORCommandTag CommandId.ProvisioningBLEMacAddress)).length +
          (arrayHdr 1).length +
          (if mac = List.replicate BLE_MAC_ADDRESS_SIZE 0 then
            (cborEncodedHeader 2 0).length
          else (cborEncodedHeader 2 BLE_MAC_ADDRESS_SIZE).length +
            BLE_MAC_ADDRESS_SIZE)) ∧
    encodeOutput (Message.provisioningBLEMacAddress mac) len =
      tagBytes (toCBORCommandTag CommandId.ProvisioningBLEMacAddress) ++
        arrayHdr 1 ++
        (if mac = List.replicate BLE_MAC_ADDRESS_SIZE 0 then cborEncodedHeader 2 0
         else cborEncodedHeader 2 BLE_MAC_ADDRESS_SIZE ++ mac) := by
  have htake : mac.take BLE_MAC_ADDRESS_SIZE = mac := by
    rw [← hmac]
    exact List.take_length mac
  have hT : (tagBytes (toCBORCommandTag
    CommandId.ProvisioningBLEMacAddress)).length = 1 := by decide
  have hA1 : (arrayHdr 1).length = 1 := by decide
  by_cases hz : mac = List.replicate BLE_MAC_ADDRESS_SIZE 0
  · have hp : ∀ a : CborEnc,
        encodeParamsOf a (Message.provisioningBLEMacAddress mac) =
        some (cbor_encode_byte_string a mac 0) := by
      intro a
      show some (encodeProvisioningBLEMacAddress a mac) = _
      rw [encodeProvisioningBLEMacAddress, htake, if_pos hz]
    have hbs : byteStringBytes mac 0 = cborEncodedHeader 2 0 := by
      simp [byteStringBytes]
    have hBlen : (byteStringBytes mac 0).length = 1 := by
      rw [hbs]
      decide
    obtain ⟨hA, hB⟩ := encode_one_byte_string_param
      (Message.provisioningBLEMacAddress mac) CommandId.ProvisioningBLEMacAddress
      mac 0 len rfl (by decide) rfl hp (by omega)
    refine ⟨?_, ?_⟩
    · rw [hA, hbs, if_pos hz]
    · rw [hB, hbs, if_pos hz]
  · have hp : ∀ a : CborEnc,
        encodeParamsOf a (Message.provisioningBLEMacAddress mac) =
        some (cbor_encode_byte_string a mac BLE_MAC_ADDRESS_SIZE) := by
      intro a
      show some (encodeProvisioningBLEMacAddress a mac) = _
      rw [encodeProvisioningBLEMacAddress, htake, if_neg hz]
    have hbs : byteStringBytes mac BLE_MAC_ADDRESS_SIZE =
        cborEncodedHeader 2 BLE_MAC_ADDRESS_SIZE ++ mac := by
      rw [byteStringBytes, htake]
    have hH : (cborEncodedHeader 2 BLE_MAC_ADDRESS_SIZE).length = 1 := by decide
    have hBlen : (byteStringBytes mac BLE_MAC_ADDRESS_SIZE).length =
        (cborEncodedHeader 2 BLE_MAC_ADDRESS_SIZE).length + BLE_MAC_ADDRESS_SIZE := by
      rw [hbs]
      simp [hmac]
    obtain ⟨hA, hB⟩ := encode_one_byte_string_param
      (Message.provisioningBLEMacAddress mac) CommandId.ProvisioningBLEMacAddress
      mac BLE_MAC_ADDRESS_SIZE len rfl (by decide) rfl hp
      (by
        have hb6 : BLE_MAC_ADDRESS_SIZE = 6 := rfl
        omega)
    refine ⟨?_, ?_⟩
    · rw [hA, if_neg hz, hBlen]
    · rw [hB, hbs, if_neg hz]

theorem encode_bleMac_zero_sentinel_witness :
    (encode (Message.provisioningBLEMacAddress [0, 0, 0, 0, 0, 0]) 16 =
      (Status.Complete,
        (tagBytes (toCBORCommandTag CommandId.ProvisioningBLEMacAddress)).length +
          (arrayHdr 1).length +
          (if [0, 0, 0, 0, 0, 0] = List.replicate BLE_MAC_ADDRESS_SIZE 0 then
            (cborEncodedHeader 2 0).length
          else (cborEncodedHeader 2 BLE_MAC_ADDRESS_SIZE).length +
            BLE_MAC_ADDRESS_SIZE)) ∧
    encodeOutput (Message.provisioningBLEMacAddress [0, 0, 0, 0, 0, 0]) 16 =
      tagBytes (toCBORCommandTag CommandId.ProvisioningBLEMacAddress) ++
        arrayHdr 1 ++
        (if [0, 0, 0, 0, 0, 0] = List.replicate BLE_MAC_ADDRESS_SIZE 0 then
          cborEncodedHeader 2 0
         else cborEncodedHeader 2 BLE_MAC_ADDRESS_SIZE ++ [0, 0, 0, 0, 0, 0])) ∧
    encodeOutput (Message.provisioningBLEMacAddress [1, 2, 3, 4, 5, 6]) 16 =
      tagBytes (toCBORCommandTag CommandId.ProvisioningBLEMacAddress) ++
        arrayHdr 1 ++
        (if [1, 2, 3, 4, 5, 6] = List.replicate BLE_MAC_ADDRESS_SIZE 0 then
          cborEncodedHeader 2 0
         else cborEncodedHeader 2 BLE_MAC_ADDRESS_SIZE ++ [1, 2, 3, 4, 5, 6]) :=
  ⟨encode_bleMac_zero_sentinel [0, 0, 0, 0, 0, 0] 16 (by decide) (by decide),
   (encode_bleMac_zero_sentinel [1, 2, 3, 4, 5, 6] 16 (by decide) (by decide)).2⟩

/-- C3 counterexample: a JWT field whose first byte is NUL is encoded as a
byte string declaring 0 content bytes, which differs from the fixed
246-byte field the claim asserts, so the encoding does depend on a NUL
terminator inside the field. -/
theorem jwt_not_fixed_size_cex :
    encodeOutput (Message.provisioningJWT (0 :: List.replicate 245 1)) 300 =
      tagBytes (toCBORCommandTag CommandId.ProvisioningJWT) ++ arrayHdr 1 ++
        byteStringBytes (0 :: List.replicate 245 1) 0 ∧
    byteStringBytes (0 :: List.replicate 245 1) 0 ≠
      byteStringBytes (0 :: List.replicate 245 1) PROVISIONING_JWT_SIZE := by
  decide

/-- C3 amended: the unique-hardware-id field is encoded as a fixed
`UHWID_SIZE`-byte byte string for every field value, independent of any NUL
inside it; the provisioning-JWT field is instead encoded as a byte string
of `strlen(jwt)` bytes — the prefix of the field before its first NUL — so
its length depends on the NUL terminator and is not the fixed
`PROVISIONING_JWT_SIZE`. -/
theorem uhwid_fixed_jwt_strlen (uhwid jwt : List Nat) (len : Nat)
    (hu : uhwid.length = UHWID_SIZE) (hcapU : 36 ≤ len)
    (hcapJ : 2 + (cborEncodedHeader 2 (cstrlen jwt)).length + cstrlen jwt ≤ len) :
    (encodeOutput (Message.provisioningUniqueHardwareId uhwid) len =
        tagBytes (toCBORCommandTag CommandId.ProvisioningUniqueHardwareId) ++
          arrayHdr 1 ++ cborEncodedHeader 2 UHWID_SIZE ++ uhwid ∧
      encode (Message.provisioningUniqueHardwareId uhwid) len =
        (Status.Complete,
          (tagBytes (toCBORCommandTag
            CommandId.ProvisioningUniqueHardwareId)).length +
            (arrayHdr 1).length + (cborEncodedHeader 2 UHWID_SIZE).length +
            UHWID_SIZE)) ∧
    (encodeOutput (Message.provisioningJWT jwt) len =
        tagBytes (toCBORCommandTag CommandId.ProvisioningJWT) ++ arrayHdr 1 ++
          cborEncodedHeader 2 (cstrlen jwt) ++ cstr jwt ∧
      encode (Message.provisioningJWT jwt) len =
        (Status.Complete,
          (tagBytes (toCBORCommandTag CommandId.ProvisioningJWT)).length +
            (arrayHdr 1).length + (cborEncodedHeader 2 (cstrlen jwt)).length +
            cstrlen jwt)) := by
  constructor
  · have htake : uhwid.take UHWID_SIZE = uhwid := by
      rw [← hu]
      exact List.take_length uhwid
    have hH : (cborEncodedHeader 2 UHWID_SIZE).length = 2 := by decide
    have hBlen : (byteStringBytes uhwid UHWID_SIZE).length = 2 + UHWID_SIZE := by
      rw [byteStringBytes, htake]
      simp [hH, hu]
    have hT : (tagBytes (toCBORCommandTag
      CommandId.ProvisioningUniqueHardwareId)).length = 1 := by decide
    have hA1 : (arrayHdr 1).length = 1 := by decide
    have hS : UHWID_SIZE = 32 := rfl
    obtain ⟨hA, hB⟩ := encode_one_byte_string_param
      (Message.provisioningUniqueHardwareId uhwid)
      CommandId.ProvisioningUniqueHardwareId uhwid UHWID_SIZE len rfl (by decide)
      rfl (fun a => rfl) (by omega)
    constructor
    · rw [hB, byteStringBytes, htake]
      simp [List.append_assoc]
    · rw [hA, Prod.mk.injEq]
      exact ⟨rfl, by omega⟩
  · have htakeJ : jwt.take (cstrlen jwt) = cstr jwt := by
      have hpre : cstr jwt <+: jwt := List.takeWhile_prefix _
      exact (List.prefix_iff_eq_take.mp hpre).symm
    have hBlenJ : (byteStringBytes jwt (cstrlen jwt)).length =
        (cborEncodedHeader 2 (cstrlen jwt)).length + cstrlen jwt := by
      rw [byteStringBytes, htakeJ]
      simp only [List.length_append]
      rfl
    have hT : (tagBytes (toCBORCommandTag CommandId.ProvisioningJWT)).length = 1 := by
      decide
    have hA1 : (arrayHdr 1).length = 1 := by decide
    obtain ⟨hA, hB⟩ := encode_one_byte_string_param (Message.provisioningJWT jwt)
      CommandId.ProvisioningJWT jwt (cstrlen jwt) len rfl (by decide) rfl
      (fun a => rfl) (by omega)
    constructor
    · rw [hB, byteStringBytes, htakeJ]
      simp [List.append_assoc]
    · rw [hA, Prod.mk.injEq]
      exact ⟨rfl, by omega⟩

theorem uhwid_fixed_jwt_strlen_witness :
    (encodeOutput (Message.provisioningUniqueHardwareId (List.replicate 32 5)) 64 =
        tagBytes (toCBORCommandTag CommandId.ProvisioningUniqueHardwareId) ++
          arrayHdr 1 ++ cborEncodedHeader 2 UHWID_SIZE ++ List.replicate 32 5 ∧
      encode (Message.provisioningUniqueHardwareId (List.replicate 32 5)) 64 =
        (Status.Complete,
          (tagBytes (toCBORCommandTag
            CommandId.ProvisioningUniqueHardwareId)).length +
            (arrayHdr 1).length + (cborEncodedHeader 2 UHWID_SIZE).length +
            UHWID_SIZE)) ∧
    (encodeOutput (Message.provisioningJWT (List.replicate 246 0)) 64 =
        tagBytes (toCBORCommandTag CommandId.ProvisioningJWT) ++ arrayHdr 1 ++
          cborEncodedHeader 2 (cstrlen (List.replicate 246 0)) ++
          cstr (List.replicate 246 0) ∧
      encode (Message.provisioningJWT (List.replicate 246 0)) 64 =
        (Status.Complete,
          (tagBytes (toCBORCommandTag CommandId.ProvisioningJWT)).length +
            (arrayHdr 1).length +
            (cborEncodedHeader 2 (cstrlen (List.replicate 246 0))).length +
            cstrlen (List.replicate 246 0))) :=
  uhwid_fixed_jwt_strlen (List.replicate 32 5) (List.replicate 246 0) 64
    (by decide) (by decide) (by decide)

/-- C5: for every Wi-Fi list message with 3 discovered network entries,
encode declares an array element count of 6 and writes, in discovery order,
alternating fields: the SSID as a NUL-terminated text string followed by
the RSSI as an integer, for each of the 3 entries. -/
theorem encode_listWifi_three (n0 n1 n2 : WiFiNetwork) (rest : List WiFiNetwork)
    (len : Nat)
    (hcap : (tagBytes (toCBORCommandTag
        CommandId.ProvisioningListWifiNetworks)).length +
      (arrayHdr 6).length + (textStringzBytes n0.SSID).length +
      (intBytes n0.RSSI).length + (textStringzBytes n1.SSID).length +
      (intBytes n1.RSSI).length + (textStringzBytes n2.SSID).length +
      (intBytes n2.RSSI).length ≤ len) :
    arraySizeOf (Message.provisioningListWifiNetworks (n0 :: n1 :: n2 :: rest) 3) =
      some 6 ∧
    encode (Message.provisioningListWifiNetworks (n0 :: n1 :: n2 :: rest) 3) len =
      (Status.Complete,
        (tagBytes (toCBORCommandTag CommandId.ProvisioningListWifiNetworks) ++
          arrayHdr 6 ++ textStringzBytes n0.SSID ++ intBytes n0.RSSI ++
          textStringzBytes n1.SSID ++ intBytes n1.RSSI ++
          textStringzBytes n2.SSID ++ intBytes n2.RSSI).length) ∧
    encodeOutput (Message.provisioningListWifiNetworks (n0 :: n1 :: n2 :: rest) 3)
        len =
      tagBytes (toCBORCommandTag CommandId.ProvisioningListWifiNetworks) ++
        arrayHdr 6 ++ textStringzBytes n0.SSID ++ intBytes n0.RSSI ++
        textStringzBytes n1.SSID ++ intBytes n1.RSSI ++
        textStringzBytes n2.SSID ++ intBytes n2.RSSI := by
  have hloop : encodeProvisioningListWifiNetworks
      ⟨tagBytes (toCBORCommandTag CommandId.ProvisioningListWifiNetworks) ++
        arrayHdr 6, len, 6 + 1⟩ (n0 :: n1 :: n2 :: rest) 3 =
      Except.ok ⟨tagBytes (toCBORCommandTag CommandId.ProvisioningListWifiNetworks) ++
        arrayHdr 6 ++ textStringzBytes n0.SSID ++ intBytes n0.RSSI ++
        textStringzBytes n1.SSID ++ intBytes n1.RSSI ++
        textStringzBytes n2.SSID ++ intBytes n2.RSSI, len, 1⟩ := by
    show encodeWifiNetworksLoop (n0 :: n1 :: n2 :: rest) [0, 1, 2] _ = _
    rw [encodeWifiNetworksLoop,
      show wifiNetworkAt (n0 :: n1 :: n2 :: rest) 0 = n0 from rfl]
    rw [cbor_encode_text_stringz_ok _ _ (by
      dsimp only
      simp only [List.length_append] at hcap ⊢
      omega)]
    dsimp only
    rw [cbor_encode_int_ok _ _ (by
      dsimp only
      simp only [List.length_append] at hcap ⊢
      omega)]
    dsimp only
    rw [encodeWifiNetworksLoop,
      show wifiNetworkAt (n0 :: n1 :: n2 :: rest) 1 = n1 from rfl]
    rw [cbor_encode_text_stringz_ok _ _ (by
      dsimp only
      simp only [List.length_append] at hcap ⊢
      omega)]
    dsimp only
    rw [cbor_encode_int_ok _ _ (by
      dsimp only
      simp only [List.length_append] at hcap ⊢
      omega)]
    dsimp only
    rw [encodeWifiNetworksLoop,
      show wifiNetworkAt (n0 :: n1 :: n2 :: rest) 2 = n2 from rfl]
    rw [cbor_encode_text_stringz_ok _ _ (by
      dsimp only
      simp only [List.length_append] at hcap ⊢
      omega)]
    dsimp only
    rw [cbor_encode_int_ok _ _ (by
      dsimp only
      simp only [List.length_append] at hcap ⊢
      omega)]
    dsimp only
    rw [encodeWifiNetworksLoop]
  obtain ⟨hA, hB⟩ := encode_complete
    (Message.provisioningListWifiNetworks (n0 :: n1 :: n2 :: rest) 3)
    CommandId.ProvisioningListWifiNetworks len 6
    ⟨tagBytes (toCBORCommandTag CommandId.ProvisioningListWifiNetworks) ++
      arrayHdr 6 ++ textStringzBytes n0.SSID ++ intBytes n0.RSSI ++
      textStringzBytes n1.SSID ++ intBytes n1.RSSI ++
      textStringzBytes n2.SSID ++ intBytes n2.RSSI, len, 1⟩
    rfl (by decide) rfl
    (by
      have hT : (tagBytes (toCBORCommandTag
        CommandId.ProvisioningListWifiNetworks)).length = 1 := by decide
      omega)
    (by
      have hT : (tagBytes (toCBORCommandTag
        CommandId.ProvisioningListWifiNetworks)).length = 1 := by decide
      have hA6 : (arrayHdr 6).length = 1 := by decide
      omega)
    (by
      show some (encodeProvisioningListWifiNetworks _ (n0 :: n1 :: n2 :: rest) 3) = _
      rw [hloop])
    rfl
  exact ⟨rfl, hA, hB⟩

theorem encode_listWifi_three_witness :
    encodeOutput (Message.provisioningListWifiNetworks
      (⟨[97], -50⟩ :: ⟨[98, 99], -60⟩ :: ⟨[], 0⟩ :: []) 3) 64 =
      tagBytes (toCBORCommandTag CommandId.ProvisioningListWifiNetworks) ++
        arrayHdr 6 ++ textStringzBytes ([97] : List Nat) ++ intBytes (-50) ++
        textStringzBytes ([98, 99] : List Nat) ++ intBytes (-60) ++
        textStringzBytes ([] : List Nat) ++ intBytes 0 :=
  (encode_listWifi_three ⟨[97], -50⟩ ⟨[98, 99], -60⟩ ⟨[], 0⟩ [] 64 (by decide)).2.2

end IoTCodec
